import Mathlib

/-!
Verification development for the dataset-assembly core of the
eccodes_grib repository (file eccodes_grib/dataset.py).

The embedding below translates the functions of dataset.py into Lean.
Header values read from GRIB messages are modelled by the type Value
(integers or strings); decoded payload arrays are modelled as lists of
rationals (standing for the finite doubles stored in the file); the
float32 NaN fill value is modelled by the element type F32 being an
Option, with none standing for NaN.  The external collaborators from
the messages module (Index construction, sub-indexing, attribute value
lookup) are not part of the source tree and are modelled from the spec,
as marked in their doc comments.
-/

deriving instance DecidableEq for Except

namespace EccodesGrib

/-- A header value as read from a GRIB message key: an integer or a string. -/
inductive Value where
  | int (n : Int)
  | str (s : String)
deriving DecidableEq, Repr

/-- The tuple of header values of one record, in schema order. -/
abbrev HeaderTuple := List Value

/-- Modelled from the spec (section 3, Index): an Index owns an ordered
list of header key names (the schema) and a mapping from per-record
header value tuples to the list of byte offsets that produced that
tuple.  The mapping is represented as an association list in insertion
(scan) order, mirroring the Python dict of messages.Index. -/
structure Index where
  index_keys : List String
  offsets : List (HeaderTuple × List Nat)
deriving DecidableEq, Repr

/-- First index of an element in a list, mirroring the Python list.index
method (none when the element does not occur). -/
def findIdxA {α : Type} [DecidableEq α] (x : α) : List α → Option Nat
  | [] => none
  | y :: ys => if y = x then some 0 else (findIdxA x ys).map (· + 1)

/-- De-duplication keeping the first occurrence of each element, in order;
the auxiliary argument collects the elements already seen. -/
def dedupFirstAux {α : Type} [DecidableEq α] (seen : List α) : List α → List α
  | [] => []
  | x :: xs =>
    if x ∈ seen then dedupFirstAux seen xs else x :: dedupFirstAux (x :: seen) xs

/-- De-duplication keeping the first occurrence of each element, in order. -/
def dedupFirst {α : Type} [DecidableEq α] (l : List α) : List α :=
  dedupFirstAux [] l

/-- Modelled from the spec (section 4.1, attribute_values): the ordered
set of distinct values observed for a key across all bucket tuples,
de-duplicated, insertion order; a key absent from the schema reports no
values. -/
def Index.get (i : Index) (key : String) : List Value :=
  match findIdxA key i.index_keys with
  | none => []
  | some p => dedupFirst (i.offsets.map (fun b => b.1.getD p (Value.str "undef")))

/-- Modelled from the spec (section 4.1, subindex): a new Index over the
same schema retaining only the buckets whose tuple entry for the key
equals the given value; empty when nothing matches. -/
def Index.subindex (i : Index) (key : String) (v : Value) : Index :=
  { index_keys := i.index_keys
    offsets :=
      match findIdxA key i.index_keys with
      | none => []
      | some p => i.offsets.filter (fun b => b.1.getD p (Value.str "undef") = v) }

/-- Errors raised by dataset.py: ValueError from enforce_unique_attributes
and dict_merge, the CoordinateNotFound exception class, and StopIteration
from taking the leader of an empty stream. -/
inductive DsError where
  | valueError (msg : String)
  | coordinateNotFound (msg : String)
  | stopIteration
deriving DecidableEq, Repr

/-- Association list lookup, mirroring Python dict lookup (first binding
wins; the lists built below bind each key at most once). -/
def lookupA {κ α : Type} [DecidableEq κ] (m : List (κ × α)) (k : κ) : Option α :=
  match m with
  | [] => none
  | e :: rest => if e.1 = k then some e.2 else lookupA rest k

/-- Python dict item assignment: overwrite the binding in place when the
key is present, append it otherwise. -/
def setAssoc {κ α : Type} [DecidableEq κ] (m : List (κ × α)) (k : κ) (v : α) :
    List (κ × α) :=
  if m.any (fun e => e.1 = k) then m.map (fun e => if e.1 = k then (k, v) else e)
  else m ++ [(k, v)]

/-- Python dict.update: item assignment for each binding of the update, in
order. -/
def updateA {κ α : Type} [DecidableEq κ] (m upd : List (κ × α)) : List (κ × α) :=
  upd.foldl (fun acc e => setAssoc acc e.1 e.2) m

/-- Translation of enforce_unique_attributes (dataset.py lines 94 to 106):
for each key in order, read the distinct values the index reports; more
than one value raises ValueError, exactly one records the binding, zero
omits the key. -/
def enforce_unique_attributes (index : Index) (attributes_keys : List String) :
    Except DsError (List (String × Value)) :=
  match attributes_keys with
  | [] => .ok []
  | key :: rest =>
    let values := index.get key
    if 1 < values.length then
      .error (.valueError ("multiple values for unique attribute " ++ key))
    else
      match values with
      | [] => enforce_unique_attributes index rest
      | v :: _ =>
        match enforce_unique_attributes index rest with
        | .error e => .error e
        | .ok tail => .ok ((key, v) :: tail)

/-- Translation of simple_header_coordinate (dataset.py lines 109 to 115):
raises CoordinateNotFound when the index reports exactly one value for
the coordinate key and it is the string undef; otherwise returns the
values together with the enforced unique attributes. -/
def simple_header_coordinate (index : Index) (coordinate_key : String)
    (attributes_keys : List String) :
    Except DsError (List Value × List (String × Value)) :=
  let data := index.get coordinate_key
  if data.length = 1 ∧ data.getD 0 (Value.int 0) = Value.str "undef" then
    .error (.coordinateNotFound ("missing from GRIB stream: " ++ coordinate_key))
  else
    match enforce_unique_attributes index attributes_keys with
    | .error e => .error e
    | .ok attributes => .ok (data, attributes)

/-- GLOBAL_ATTRIBUTES_KEYS of dataset.py. -/
def GLOBAL_ATTRIBUTES_KEYS : List String := ["edition", "centre", "centreDescription"]

/-- VARIABLE_ATTRIBUTES_KEYS of dataset.py. -/
def VARIABLE_ATTRIBUTES_KEYS : List String :=
  ["paramId", "shortName", "units", "name", "cfName", "missingValue"]

/-- SPATIAL_COORDINATES_ATTRIBUTES_KEYS of dataset.py. -/
def SPATIAL_COORDINATES_ATTRIBUTES_KEYS : List String := ["gridType", "numberOfPoints"]

/-- GRID_TYPE_MAP of dataset.py: grid kind to the list of geometry keys. -/
def GRID_TYPE_MAP : List (String × List String) :=
  [("regular_ll",
    ["Ni", "iDirectionIncrementInDegrees", "iScansNegatively",
     "longitudeOfFirstGridPointInDegrees", "longitudeOfLastGridPointInDegrees",
     "Nj", "jDirectionIncrementInDegrees", "jPointsAreConsecutive", "jScansPositively",
     "latitudeOfFirstGridPointInDegrees", "latitudeOfLastGridPointInDegrees"]),
   ("reduced_ll",
    ["Nj", "jDirectionIncrementInDegrees", "jPointsAreConsecutive", "jScansPositively",
     "latitudeOfFirstGridPointInDegrees", "latitudeOfLastGridPointInDegrees", "pl"]),
   ("regular_gg",
    ["Ni", "iDirectionIncrementInDegrees", "iScansNegatively",
     "longitudeOfFirstGridPointInDegrees", "longitudeOfLastGridPointInDegrees", "N"]),
   ("lambert",
    ["LaDInDegrees", "LoVInDegrees", "iScansNegatively",
     "jPointsAreConsecutive", "jScansPositively",
     "latitudeOfFirstGridPointInDegrees", "latitudeOfSouthernPoleInDegrees",
     "longitudeOfFirstGridPointInDegrees", "longitudeOfSouthernPoleInDegrees",
     "DyInMetres", "DxInMetres", "Latin2InDegrees", "Latin1InDegrees", "Ny", "Nx"]),
   ("reduced_gg", ["N", "pl"]),
   ("sh", ["M", "K", "J"])]

/-- HEADER_COORDINATES_MAP of dataset.py (lines 76 to 82): the fixed
ordered coordinate table, each key with its associated attribute keys. -/
def HEADER_COORDINATES_MAP : List (String × List String) :=
  [("number", ["totalNumber"]),
   ("dataDate", []),
   ("dataTime", []),
   ("endStep", ["stepUnits", "stepType"]),
   ("topLevel", ["typeOfLevel"])]

/-- The data held by a coordinate Variable: a scalar header value (a size
one coordinate collapsed by indexing with 0), an array of header values,
or an array of rationals (the latitude and longitude coordinates). -/
inductive VData where
  | scalarV (v : Value)
  | arrayV (vs : List Value)
  | arrayQ (qs : List ℚ)
deriving DecidableEq, Repr

/-- The numpy size of the data of a coordinate Variable. -/
def VData.size : VData → Nat
  | .scalarV _ => 1
  | .arrayV vs => vs.length
  | .arrayQ qs => qs.length

/-- Translation of the Variable class of dataset.py: dimension names,
data and attributes; the derived equality mirrors Variable.__eq__,
which compares dimensions, attributes and data. -/
structure Variable where
  dimensions : List String
  data : VData
  attributes : List (String × Value)
deriving DecidableEq, Repr

/-- The per-record data the DataVariable constructor reads from the
leader message: grid type, declared payload length, and the decoded
latitude and longitude geometry arrays. -/
structure Record where
  gridType : String
  numberOfPoints : Nat
  latitudes : List ℚ
  longitudes : List ℚ
deriving DecidableEq, Repr

/-- The messages.Stream collaborator, reduced to what dataset.py uses of
it here: the ordered sequence of records of the file. -/
structure Stream where
  records : List Record
deriving DecidableEq, Repr

/-- The coordinate Variable built for one header coordinate key
(dataset.py lines 237 to 244): an array of the distinct values, except
that a single value collapses to a scalar with no dimension. -/
def mkCoordVariable (coord_key : String) (values : List Value)
    (attributes : List (String × Value)) : Variable :=
  if values.length = 1 then
    { dimensions := [], data := .scalarV (values.getD 0 (Value.str "undef"))
      attributes := attributes }
  else
    { dimensions := [coord_key], data := .arrayV values, attributes := attributes }

/-- The coordinate-building loop of DataVariable (dataset.py lines 229
to 244): for each coordinate key in order try simple_header_coordinate;
a CoordinateNotFound skips the coordinate, any other error propagates. -/
def buildCoordinates (index : Index) :
    List (String × List String) → Except DsError (List (String × Variable))
  | [] => .ok []
  | c :: rest =>
    match simple_header_coordinate index c.1 c.2 with
    | .error (.coordinateNotFound _) => buildCoordinates index rest
    | .error e => .error e
    | .ok (values, attributes) =>
      match buildCoordinates index rest with
      | .error e => .error e
      | .ok tail => .ok ((c.1, mkCoordVariable c.1 values attributes) :: tail)

/-- The state of a constructed DataVariable: the sub-index and stream it
was built from plus the fields computed by the constructor.  The derived
equality compares all fields; since every computed field is a function
of index and stream, it agrees with the attrs-generated equality of the
Python class, which compares index and stream. -/
structure DataVariable where
  index : Index
  stream : Stream
  attributes : List (String × Value)
  coordinates : List (String × Variable)
  dimensions : List String
  shape : List Nat
  dtype : String
  size : Nat
deriving DecidableEq, Repr

/-- Translation of DataVariable.__attrs_post_init__ (dataset.py lines 217
to 267), with the field assignments performed in source order: leader
record, unique variable attributes, grid-type dependent spatial
attributes, header coordinates, the coordinates attribute string, the
dimensions and shape, the latitude and longitude coordinates, and the
dtype and size fields. -/
def mkDataVariable (stream : Stream) (index : Index) : Except DsError DataVariable :=
  match stream.records.head? with
  | none => .error .stopIteration
  | some leader =>
    match enforce_unique_attributes index VARIABLE_ATTRIBUTES_KEYS with
    | .error e => .error e
    | .ok attrs1 =>
      match enforce_unique_attributes index
          (SPATIAL_COORDINATES_ATTRIBUTES_KEYS ++
            (lookupA GRID_TYPE_MAP leader.gridType).getD []) with
      | .error e => .error e
      | .ok attrs2 =>
        match buildCoordinates index HEADER_COORDINATES_MAP with
        | .error e => .error e
        | .ok coords =>
          let attrs := updateA (updateA attrs1 attrs2)
            [("coordinates",
              Value.str (String.intercalate " " (coords.map (fun c => c.1)) ++ " lat lon"))]
          let dimensions :=
            (coords.filter (fun c => 1 < c.2.data.size)).map (fun c => c.1) ++ ["i"]
          let shape := dimensions.dropLast.map (fun d =>
              match lookupA coords d with
              | some c => c.data.size
              | none => 0) ++ [leader.numberOfPoints]
          .ok { index := index, stream := stream, attributes := attrs
                coordinates := coords ++
                  [("lat", { dimensions := ["i"], data := .arrayQ leader.latitudes
                             attributes := [("units", Value.str "degrees_north")] }),
                   ("lon", { dimensions := ["i"], data := .arrayQ leader.longitudes
                             attributes := [("units", Value.str "degrees_east")] })]
                dimensions := dimensions, shape := shape, dtype := "float32"
                size := shape.foldl (fun x y => x * y) 1 }

/-- Lexicographic comparison of offset lists, mirroring how Python
compares the list values of the offsets mapping when sorting its items. -/
def lexLe : List Nat → List Nat → Bool
  | [], _ => true
  | _ :: _, [] => false
  | a :: as, b :: bs => if a < b then true else if b < a then false else lexLe as bs

/-- The ordering used to sort the items of the offsets mapping: by the
offset list of the bucket. -/
def bucketLE (a b : HeaderTuple × List Nat) : Prop := lexLe a.2 b.2 = true

instance : DecidableRel bucketLE := fun a b => by
  unfold bucketLE; infer_instance

theorem lexLe_total (a b : List Nat) : lexLe a b = true ∨ lexLe b a = true := by
  induction a generalizing b with
  | nil => left; rfl
  | cons x xs ih =>
    cases b with
    | nil => right; rfl
    | cons y ys =>
      simp only [lexLe]
      rcases Nat.lt_trichotomy x y with h | h | h
      · left; rw [if_pos h]
      · subst h
        rcases ih ys with h2 | h2
        · left; rw [if_neg (Nat.lt_irrefl x), if_neg (Nat.lt_irrefl x)]; exact h2
        · right; rw [if_neg (Nat.lt_irrefl x), if_neg (Nat.lt_irrefl x)]; exact h2
      · right; rw [if_pos h]

theorem lexLe_trans {a b c : List Nat} (hab : lexLe a b = true)
    (hbc : lexLe b c = true) : lexLe a c = true := by
  induction a generalizing b c with
  | nil => rfl
  | cons x xs ih =>
    cases b with
    | nil => simp [lexLe] at hab
    | cons y ys =>
      cases c with
      | nil => simp [lexLe] at hbc
      | cons z zs =>
        simp only [lexLe] at hab hbc ⊢
        by_cases hxy : x < y
        · by_cases hyz : y < z
          · rw [if_pos (Nat.lt_trans hxy hyz)]
          · rw [if_neg hyz] at hbc
            by_cases hzy : z < y
            · rw [if_pos hzy] at hbc; exact absurd hbc (by simp)
            · have heq : y = z := Nat.le_antisymm (Nat.not_lt.mp hzy) (Nat.not_lt.mp hyz)
              subst heq
              rw [if_pos hxy]
        · rw [if_neg hxy] at hab
          by_cases hyx : y < x
          · rw [if_pos hyx] at hab; exact absurd hab (by simp)
          · have heq : x = y := Nat.le_antisymm (Nat.not_lt.mp hyx) (Nat.not_lt.mp hxy)
            subst heq
            rw [if_neg (Nat.lt_irrefl x)] at hab
            by_cases hxz : x < z
            · rw [if_pos hxz]
            · rw [if_neg hxz] at hbc ⊢
              by_cases hzx : z < x
              · rw [if_pos hzx] at hbc; exact absurd hbc (by simp)
              · rw [if_neg hzx] at hbc ⊢
                exact ih hab hbc

instance : IsTotal (HeaderTuple × List Nat) bucketLE :=
  ⟨fun a b => lexLe_total a.2 b.2⟩

instance : IsTrans (HeaderTuple × List Nat) bucketLE :=
  ⟨fun _ _ _ hab hbc => lexLe_trans hab hbc⟩

/-- The iteration order of the build_array loop (dataset.py line 273):
the items of the offsets mapping sorted by their offset list.  Python
uses a stable sort; the insertion sort used here is stable as well. -/
def sortBuckets (bs : List (HeaderTuple × List Nat)) : List (HeaderTuple × List Nat) :=
  List.insertionSort bucketLE bs

/-- A float32 array element: none stands for the NaN fill value, some q
for a finite value. -/
abbrev F32 := Option ℚ

/-- Option-valued traversal of a list in order, stopping at the first
failure. -/
def optMapM {α β : Type} (f : α → Option β) : List α → Option (List β)
  | [] => some []
  | x :: xs =>
    match f x with
    | none => none
    | some y =>
      match optMapM f xs with
      | none => none
      | some ys => some (y :: ys)

/-- The integer position of one record along each non-trailing dimension
(dataset.py lines 274 to 277): for each dimension, read the header value
of the record at the position of that key in the schema and locate it in
the coordinate's distinct value list; any failed lookup is an exception
of the Python code, modelled by none. -/
def posOfDim (v : DataVariable) (header_values : HeaderTuple) (dim : String) :
    Option Nat :=
  match findIdxA dim v.index.index_keys with
  | none => none
  | some ki =>
    match header_values.get? ki with
    | none => none
    | some header_value =>
      match lookupA v.coordinates dim with
      | none => none
      | some coord =>
        match coord.data with
        | .arrayV vs => findIdxA header_value vs
        | _ => none

def computePos (v : DataVariable) (header_values : HeaderTuple) : Option (List Nat) :=
  optMapM (posOfDim v header_values) v.dimensions.dropLast

/-- The missing value sentinel used by the final substitution of
build_array (dataset.py line 282): the missingValue attribute when the
variable declares an integer one, 9999 when it declares none; a
non-numeric attribute value matches no float32 entry, modelled by none. -/
def attrMissingValue (attributes : List (String × Value)) : Option ℚ :=
  match lookupA attributes "missingValue" with
  | some (Value.int n) => some (n : ℚ)
  | some (Value.str _) => none
  | none => some 9999

/-- The substitution of dataset.py line 283: every entry equal to the
missing value sentinel is rewritten to NaN. -/
def substMissing (mv : Option ℚ) (row : List ℚ) : List F32 :=
  row.map (fun q => if some q = mv then none else some q)

/-- One pass of the build_array loop body for one bucket of the offsets
mapping (dataset.py lines 273 to 281): compute the multi-index from the
header values, read the message at the first offset of the bucket, and
produce the payload row to assign to the trailing slice at that
multi-index.  The write succeeds when the multi-index has one entry per
non-trailing axis, each within bounds, and the payload length equals the
trailing size (or is one, which numpy broadcasts); any other case is a
numpy exception, modelled by none. -/
def placeOne (v : DataVariable) (payload : Nat → List ℚ)
    (b : HeaderTuple × List Nat) : Option (List Nat × List ℚ) :=
  match computePos v b.1 with
  | none => none
  | some pos =>
    match b.2.head? with
    | none => none
    | some off =>
      match v.shape.getLast? with
      | none => none
      | some m =>
        if pos.length + 1 = v.shape.length ∧
            (List.zip pos v.shape.dropLast).all (fun p => p.1 < p.2) then
          if (payload off).length = m then
            some (pos, payload off)
          else
            match payload off with
            | [q] => some (pos, List.replicate m q)
            | _ => none
        else
          none

/-- The sequence of slice assignments performed by the build_array loop,
in iteration order: one write per bucket of the sorted offsets mapping. -/
def buildArrayWrites (v : DataVariable) (payload : Nat → List ℚ) :
    Option (List (List Nat × List ℚ)) :=
  optMapM (placeOne v payload) (sortBuckets v.index.offsets)

/-- Translation of DataVariable.build_array (dataset.py lines 269 to 284):
the dense array starts NaN-filled, each bucket of the sorted offsets
mapping assigns one trailing slice, and finally every entry equal to the
missing value sentinel is rewritten to NaN.  Since every write covers a
full trailing slice, the array is represented by its written rows in
write order; unwritten rows keep the NaN fill (see arrayAt). -/
def build_array (v : DataVariable) (payload : Nat → List ℚ) :
    Option (List (List Nat × List F32)) :=
  (buildArrayWrites v payload).map
    (List.map (fun w => (w.1, substMissing (attrMissingValue v.attributes) w.2)))

/-- The value of the last write at a given multi-index, none when the
multi-index was never written: numpy slice assignment leaves the last
write in the array. -/
def lookupLast {α : Type} (rows : List (List Nat × α)) (pos : List Nat) : Option α :=
  rows.foldl (fun acc r => if r.1 = pos then some r.2 else acc) none

/-- The content of the built array at a non-trailing multi-index: the last
row written there, or the NaN fill row when no record wrote it. -/
def arrayAt (v : DataVariable) (rows : List (List Nat × List F32))
    (pos : List Nat) : List F32 :=
  (lookupLast rows pos).getD (List.replicate (v.shape.getLastD 0) none)

/-- Translation of dict_merge (dataset.py lines 305 to 313): for each
binding of the update in order, insert an absent key, keep an equal
binding unchanged, and raise ValueError on a key present with a
different value. -/
def dict_merge {κ α : Type} [DecidableEq κ] [DecidableEq α]
    (master : List (κ × α)) : List (κ × α) → Except DsError (List (κ × α))
  | [] => .ok master
  | e :: rest =>
    match lookupA master e.1 with
    | none => dict_merge (master ++ [e]) rest
    | some v =>
      if v = e.2 then dict_merge master rest
      else .error (.valueError "key present and new value is different")

/-- An entry of the variables mapping of a dataset: a DataVariable or a
coordinate Variable.  Equality across the two classes is false, as in
Python where Variable.__eq__ rejects a different class. -/
inductive VarEntry where
  | data (v : DataVariable)
  | coord (c : Variable)
deriving DecidableEq, Repr

/-- The version tag appended to the global attributes; the Python code
reads it from the installed package metadata. -/
def VERSION : String := "0.0.0"

/-- The per-parameter loop of build_dataset_components (dataset.py lines
321 to 327): build the DataVariable of the sub-index of the parameter
id, merge its dimension sizes into the dimensions mapping and the
variable plus its coordinates into the variables mapping. -/
def mergeVariables (stream : Stream) (index : Index)
    (dimsAcc : List (String × Nat)) (varsAcc : List (Value × VarEntry)) :
    List (Value × Value) →
    Except DsError (List (String × Nat) × List (Value × VarEntry))
  | [] => .ok (dimsAcc, varsAcc)
  | pv :: rest =>
    match mkDataVariable stream (index.subindex "paramId" pv.1) with
    | .error e => .error e
    | .ok var =>
      let vars := updateA [(pv.2, VarEntry.data var)]
        (var.coordinates.map (fun c => (Value.str c.1, VarEntry.coord c.2)))
      let dims := List.zip var.dimensions var.shape
      match dict_merge dimsAcc dims with
      | .error e => .error e
      | .ok dimsAcc2 =>
        match dict_merge varsAcc vars with
        | .error e => .error e
        | .ok varsAcc2 => mergeVariables stream index dimsAcc2 varsAcc2 rest

/-- Translation of build_dataset_components (dataset.py lines 316 to 330):
zip the distinct parameter ids with the distinct short names reported by
the full-file index, build and merge one DataVariable per pair, then the
unique global attributes with the version tag appended.  The full-file
index built by stream.index(ALL_KEYS) is the input index. -/
def build_dataset_components (stream : Stream) (index : Index) :
    Except DsError
      (List (String × Nat) × List (Value × VarEntry) × List (String × Value)) :=
  match mergeVariables stream index [] []
      (List.zip (index.get "paramId") (index.get "shortName")) with
  | .error e => .error e
  | .ok (dimensions, vars) =>
    match enforce_unique_attributes index GLOBAL_ATTRIBUTES_KEYS with
    | .error e => .error e
    | .ok attributes =>
      .ok (dimensions, vars,
        updateA attributes [("eccodesGribVersion", Value.str VERSION)])

/-- The DataArray.data property (dataset.py lines 179 to 183): the cache
field starts unset; the first access stores the result of build_array in
it and every access returns the cached value. -/
def data_property {α : Type} (builder : Unit → α) : Option α → α × Option α
  | some a => (a, some a)
  | none => let a := builder (); (a, some a)

/-! ### Helper definitions used by the claim statements -/

/-- Whether an Except value is a success. -/
def isOkE {e a : Type} : Except e a → Bool
  | .ok _ => true
  | .error _ => false

/-- A header coordinate is retained by the DataVariable constructor when
simple_header_coordinate succeeds on it (C1, C6). -/
def retainedCoordinate (i : Index) (c : String × List String) : Bool :=
  isOkE (simple_header_coordinate i c.1 c.2)

/-- The coordinates entry the constructor loop produces for one header
coordinate: none when simple_header_coordinate fails. -/
def coordEntry? (i : Index) (c : String × List String) : Option (String × Variable) :=
  match simple_header_coordinate i c.1 c.2 with
  | .ok r => some (c.1, mkCoordVariable c.1 r.1 r.2)
  | .error _ => none

/-! ### Concrete inputs used by witnesses and counterexamples -/

/-- A concrete index exercising all three cases of C4: the key a has one
value, the key b is absent from the schema, and the key c has two
distinct values. -/
def c4Index : Index :=
  { index_keys := ["a", "c"]
    offsets := [([Value.int 1, Value.int 5], [0]), ([Value.int 1, Value.int 6], [10])] }

/-- A concrete index whose endStep coordinate carries the undef sentinel. -/
def c6Index : Index :=
  { index_keys := ["endStep", "topLevel"]
    offsets := [([Value.str "undef", Value.int 850], [0]),
                ([Value.str "undef", Value.int 500], [64])] }

/-- A header tuple of the concrete two-parameter file used for the C5
scenarios, in the schema order of c5Keys. -/
def c5Tuple (pid : Int) (sn : String) (level : Int) : HeaderTuple :=
  [.int pid, .str sn, .str "K", .str "Temperature", .str "air_temperature",
   .int 9999, .str "foo", .int 2, .int 0, .int 20170101, .int 0, .int 0,
   .int level, .str "undef", .str "undef", .str "undef", .str "isobaricInhPa"]

/-- The schema of the concrete indexes used for the C5 and C7 scenarios. -/
def c5Keys : List String :=
  ["paramId", "shortName", "units", "name", "cfName", "missingValue", "gridType",
   "numberOfPoints", "number", "dataDate", "dataTime", "endStep", "topLevel",
   "totalNumber", "stepUnits", "stepType", "typeOfLevel"]

/-- A one-record stream providing the leader record of the C5 scenarios. -/
def c5Stream : Stream := ⟨[⟨"foo", 2, [], []⟩]⟩

/-- A file whose parameter t has two topLevel values while parameter q has
three: the two variables declare the dimension topLevel with sizes 2 and
3. -/
def c5IndexConflict : Index :=
  { index_keys := c5Keys
    offsets := [(c5Tuple 130 "t" 850, [0]), (c5Tuple 130 "t" 500, [100]),
                (c5Tuple 131 "q" 850, [200]), (c5Tuple 131 "q" 500, [300]),
                (c5Tuple 131 "q" 1000, [400])] }

/-- A file whose parameters t and q both have the same two topLevel
values: the two variables declare the dimension topLevel with the same
size 2. -/
def c5IndexOk : Index :=
  { index_keys := c5Keys
    offsets := [(c5Tuple 130 "t" 850, [0]), (c5Tuple 130 "t" 500, [100]),
                (c5Tuple 131 "q" 850, [200]), (c5Tuple 131 "q" 500, [300])] }

/-- Fallback DataVariable used in the unreachable error branch when a
concrete example variable is extracted from a successful construction. -/
def fallbackVar (i : Index) (s : Stream) : DataVariable :=
  { index := i, stream := s, attributes := [], coordinates := []
    dimensions := [], shape := [], dtype := "", size := 0 }

/-- The DataVariable of parameter 130 of c5IndexOk: dimensions topLevel
and i, shape 2 by 2, with two singleton buckets at offsets 0 and 100. -/
def caVar : DataVariable :=
  match mkDataVariable c5Stream (c5IndexOk.subindex "paramId" (Value.int 130)) with
  | .ok v => v
  | .error _ => fallbackVar c5IndexOk c5Stream

/-- A concrete payload map for caVar: the record at offset 0 carries one
missing value sentinel entry. -/
def caPayload : Nat → List ℚ := fun o => if o = 0 then [1, 9999] else [3, 4]

/-- An index with a single bucket holding two offsets: two records share
the identical full header tuple. -/
def c8Index : Index :=
  { index_keys := c5Keys, offsets := [(c5Tuple 130 "t" 850, [10, 20])] }

/-- The DataVariable over c8Index: every header coordinate is
single-valued, so the only dimension is the trailing i of size 2. -/
def c8Var : DataVariable :=
  match mkDataVariable c5Stream c8Index with
  | .ok v => v
  | .error _ => fallbackVar c8Index c5Stream

/-- Payloads of the two duplicate records of c8Index. -/
def c8Payload : Nat → List ℚ := fun o => if o = 10 then [5, 6] else [7, 8]

/-- A payload map agreeing with c8Payload at every first offset but
different at the non-first offset 20. -/
def c10PayloadAlt : Nat → List ℚ := fun o => if o = 20 then [100, 200] else c8Payload o

/-- A header tuple whose endStep entry is the undef sentinel (so the
endStep coordinate is skipped and stepUnits is never enforced) and whose
stepUnits entry varies: records with different such tuples fall into
distinct buckets yet compute the same multi-index. -/
def c8bTuple (su : Int) : HeaderTuple :=
  [.int 130, .str "t", .str "K", .str "Temperature", .str "air_temperature",
   .int 9999, .str "foo", .int 2, .int 0, .int 20170101, .int 0, .str "undef",
   .int 850, .str "undef", .int su, .str "undef", .str "isobaricInhPa"]

/-- An index with two distinct buckets, both computing the empty
multi-index of a variable whose only dimension is the trailing one. -/
def c8bIndex : Index :=
  { index_keys := c5Keys, offsets := [(c8bTuple 1, [30]), (c8bTuple 2, [40])] }

/-- The DataVariable over c8bIndex. -/
def c8bVar : DataVariable :=
  match mkDataVariable c5Stream c8bIndex with
  | .ok v => v
  | .error _ => fallbackVar c8bIndex c5Stream

/-- Payloads of the two colliding records of c8bIndex. -/
def c8bPayload : Nat → List ℚ := fun o => if o = 30 then [5, 6] else [7, 8]

/-- The data-variable entries of a variables mapping, in order: the
bindings whose value is a DataVariable rather than a coordinate. -/
def dataEntries (vars : List (Value × VarEntry)) : List (Value × DataVariable) :=
  vars.filterMap (fun e => match e.2 with
    | VarEntry.data v => some (e.1, v)
    | VarEntry.coord _ => none)

/-- A file with two distinct parameter ids sharing one short name. -/
def c7Index : Index :=
  { index_keys := c5Keys
    offsets := [(c5Tuple 130 "t" 850, [0]), (c5Tuple 131 "t" 850, [100])] }

/-! ### General lemmas about the embedded operations -/

/-- enforce_unique_attributes only raises ValueError, never the
CoordinateNotFound exception. -/
theorem enforce_unique_attributes_not_cnf (index : Index) (keys : List String)
    (msg : String) :
    enforce_unique_attributes index keys ≠ .error (.coordinateNotFound msg) := by
  induction keys with
  | nil => simp [enforce_unique_attributes]
  | cons k rest ih =>
    simp only [enforce_unique_attributes]
    split
    · simp
    · cases hv : index.get k with
      | nil => exact ih
      | cons v vs =>
        cases he : enforce_unique_attributes index rest with
        | error e =>
          intro h
          simp only [] at h
          exact ih (by rw [he, h])
        | ok tail => simp

theorem enforce_unique_attributes_ok (index : Index) (keys : List String)
    (hk : ∀ k ∈ keys, (index.get k).length ≤ 1) :
    enforce_unique_attributes index keys =
      .ok (keys.filterMap (fun k => ((index.get k).head?).map (fun v => (k, v)))) := by
  induction keys with
  | nil => rfl
  | cons k rest ih =>
    have hlen : (index.get k).length ≤ 1 := hk k (by simp)
    have hrest : ∀ x ∈ rest, (index.get x).length ≤ 1 := fun x hx => hk x (by simp [hx])
    simp only [enforce_unique_attributes, List.filterMap_cons]
    rw [if_neg (by omega)]
    cases hv : index.get k with
    | nil => simpa using ih hrest
    | cons v vs =>
      cases vs with
      | nil => rw [ih hrest]; rfl
      | cons w ws => rw [hv] at hlen; simp at hlen

theorem enforce_unique_attributes_error (index : Index) (keys : List String)
    (hk : ∃ k ∈ keys, 1 < (index.get k).length) :
    ∃ msg, enforce_unique_attributes index keys = .error (.valueError msg) := by
  induction keys with
  | nil => simp at hk
  | cons k rest ih =>
    simp only [enforce_unique_attributes]
    by_cases h1 : 1 < (index.get k).length
    · exact ⟨_, by rw [if_pos h1]⟩
    · rw [if_neg h1]
      have hrest : ∃ x ∈ rest, 1 < (index.get x).length := by
        rcases hk with ⟨x, hx, hlen⟩
        rcases List.mem_cons.mp hx with rfl | hx2
        · exact absurd hlen h1
        · exact ⟨x, hx2, hlen⟩
      rcases ih hrest with ⟨msg, hmsg⟩
      cases hv : index.get k with
      | nil => exact ⟨msg, hmsg⟩
      | cons v vs => exact ⟨msg, by rw [hmsg]⟩

/-! ### Claim C4 -/

/-- C4: for every index and key list, enforce_unique_attributes behaves
per key as a three-way case: with every key reporting at most one value
it succeeds and maps, in the order of the key list, each key reporting
exactly one value to that value and omits each key reporting zero
values; while any key reporting two or more distinct values makes it
raise the ambiguous attribute ValueError. -/
theorem enforce_unique_attributes_three_way (index : Index) (keys : List String) :
    ((∀ k ∈ keys, (index.get k).length ≤ 1) →
      enforce_unique_attributes index keys =
        .ok (keys.filterMap (fun k => ((index.get k).head?).map (fun v => (k, v)))))
    ∧ ((∃ k ∈ keys, 1 < (index.get k).length) →
      ∃ msg, enforce_unique_attributes index keys = .error (.valueError msg)) :=
  ⟨enforce_unique_attributes_ok index keys, enforce_unique_attributes_error index keys⟩

/-- Witness for C4: on c4Index, the keys a and b produce the single
binding for a in order, and adding the ambiguous key c raises. -/
theorem enforce_unique_attributes_three_way_witness :
    enforce_unique_attributes c4Index ["a", "b"] = .ok [("a", Value.int 1)]
    ∧ ∃ msg, enforce_unique_attributes c4Index ["a", "b", "c"] =
        .error (.valueError msg) := by
  constructor
  · have h := (enforce_unique_attributes_three_way c4Index ["a", "b"]).1
      (by intro k hk; fin_cases hk <;> decide)
    rw [h]; rfl
  · exact (enforce_unique_attributes_three_way c4Index ["a", "b", "c"]).2
      ⟨"c", by decide⟩

/-! ### Claim C6 -/

/-- C6: simple_header_coordinate raises CoordinateNotFound exactly when
the index reports the single value undef for the coordinate key, and the
coordinate loop of the DataVariable constructor catches it, omitting the
coordinate and continuing with the remaining coordinates. -/
theorem simple_header_coordinate_not_found (index : Index) (k : String)
    (aks : List String) (rest : List (String × List String)) :
    ((∃ msg, simple_header_coordinate index k aks = .error (.coordinateNotFound msg)) ↔
      index.get k = [Value.str "undef"])
    ∧ (index.get k = [Value.str "undef"] →
      buildCoordinates index ((k, aks) :: rest) = buildCoordinates index rest) := by
  have hcond : ((index.get k).length = 1 ∧
      (index.get k).getD 0 (Value.int 0) = Value.str "undef") ↔
      index.get k = [Value.str "undef"] := by
    constructor
    · rintro ⟨h1, h2⟩
      cases hv : index.get k with
      | nil => rw [hv] at h1; simp at h1
      | cons v vs =>
        rw [hv] at h1 h2
        cases vs with
        | nil => simp at h2; rw [h2]
        | cons w ws => simp at h1
    · intro h; rw [h]; exact ⟨rfl, rfl⟩
  constructor
  · constructor
    · rintro ⟨msg, hmsg⟩
      by_contra hne
      have hcf : ¬ ((index.get k).length = 1 ∧
          (index.get k).getD 0 (Value.int 0) = Value.str "undef") := fun hc =>
        hne (hcond.mp hc)
      rw [simple_header_coordinate, if_neg hcf] at hmsg
      cases he : enforce_unique_attributes index aks with
      | error e =>
        rw [he] at hmsg
        simp [Except.bind] at hmsg
        exact enforce_unique_attributes_not_cnf index aks msg (by rw [he, hmsg])
      | ok attrs => rw [he] at hmsg; simp [Except.bind] at hmsg
    · intro h
      exact ⟨"missing from GRIB stream: " ++ k,
        by rw [simple_header_coordinate, if_pos (hcond.mpr h)]⟩
  · intro h
    have hshc : simple_header_coordinate index k aks =
        .error (.coordinateNotFound ("missing from GRIB stream: " ++ k)) := by
      rw [simple_header_coordinate, if_pos (hcond.mpr h)]
    rw [buildCoordinates, hshc]

/-- Witness for C6: on c6Index the endStep coordinate raises
CoordinateNotFound and the loop skips it, keeping only topLevel. -/
theorem simple_header_coordinate_not_found_witness :
    c6Index.get "endStep" = [Value.str "undef"]
    ∧ (∃ msg, simple_header_coordinate c6Index "endStep" ["stepUnits", "stepType"] =
        .error (.coordinateNotFound msg))
    ∧ buildCoordinates c6Index
        [("endStep", ["stepUnits", "stepType"]), ("topLevel", ["typeOfLevel"])] =
      buildCoordinates c6Index [("topLevel", ["typeOfLevel"])] := by
  have hval : c6Index.get "endStep" = [Value.str "undef"] := by decide
  refine ⟨hval, ?_, ?_⟩
  · exact (simple_header_coordinate_not_found c6Index "endStep" ["stepUnits", "stepType"]
      []).1.mpr hval
  · exact (simple_header_coordinate_not_found c6Index "endStep" ["stepUnits", "stepType"]
      [("topLevel", ["typeOfLevel"])]).2 hval

/-! ### Claim C9 -/

/-- C9: the data property is idempotent and cached: the first access
stores the result of build_array in the cache field, a second access
performed on the resulting state returns the identical value, and an
access on any populated cache returns the cached array without invoking
any builder. -/
theorem data_property_cached (v : DataVariable) (payload : Nat → List ℚ) :
    (data_property (fun _ => build_array v payload) none =
      (build_array v payload, some (build_array v payload)))
    ∧ (data_property (fun _ => build_array v payload)
        (data_property (fun _ => build_array v payload) none).2 =
      data_property (fun _ => build_array v payload) none)
    ∧ (∀ (α : Type) (builder : Unit → α) (a : α),
      data_property builder (some a) = (a, some a)) :=
  ⟨rfl, rfl, fun _ _ _ => rfl⟩

/-! ### Claim C5 -/

/-- C5: dict_merge leaves a key present with an equal value unchanged,
inserts an absent key, and raises ValueError on a key present with a
different value; consequently the dataset build over a file whose two
variables declare topLevel with sizes 2 and 3 fails with that
ValueError, while with equal sizes it succeeds and the dimensions
mapping records the single size. -/
theorem dict_merge_cases_and_dimension_conflict :
    (∀ (κ α : Type) [DecidableEq κ] [DecidableEq α]
      (master : List (κ × α)) (k : κ) (v : α),
      (lookupA master k = none → dict_merge master [(k, v)] = .ok (master ++ [(k, v)]))
      ∧ (lookupA master k = some v → dict_merge master [(k, v)] = .ok master)
      ∧ (∀ w, lookupA master k = some w → w ≠ v →
          dict_merge master [(k, v)] =
            .error (.valueError "key present and new value is different")))
    ∧ build_dataset_components c5Stream c5IndexConflict =
        .error (.valueError "key present and new value is different")
    ∧ (build_dataset_components c5Stream c5IndexOk).toOption.map (fun r => r.1) =
        some [("topLevel", 2), ("i", 2)] := by
  refine ⟨?_, by decide, by decide⟩
  intro κ α _ _ master k v
  refine ⟨fun h => ?_, fun h => ?_, fun w h hne => ?_⟩
  · simp [dict_merge, h]
  · simp [dict_merge, h]
  · simp [dict_merge, h, hne]

/-- Witness for C5: the three dict_merge cases applied at concrete
mappings of dimension sizes. -/
theorem dict_merge_cases_and_dimension_conflict_witness :
    dict_merge [("topLevel", 2)] [("i", 7320)] = .ok [("topLevel", 2), ("i", 7320)]
    ∧ dict_merge [("topLevel", 2)] [("topLevel", 2)] = .ok [("topLevel", 2)]
    ∧ dict_merge [("topLevel", 2)] [("topLevel", 3)] =
        .error (.valueError "key present and new value is different") :=
  ⟨(dict_merge_cases_and_dimension_conflict.1 String Nat
      [("topLevel", 2)] "i" 7320).1 (by decide),
   (dict_merge_cases_and_dimension_conflict.1 String Nat
      [("topLevel", 2)] "topLevel" 2).2.1 (by decide),
   (dict_merge_cases_and_dimension_conflict.1 String Nat
      [("topLevel", 2)] "topLevel" 3).2.2 2 (by decide) (by decide)⟩

/-! ### Claim C1 -/

/-- A successful simple_header_coordinate returns exactly the distinct
values the index reports for the coordinate key. -/
theorem shc_ok_data {i : Index} {k : String} {aks : List String}
    {r : List Value × List (String × Value)}
    (h : simple_header_coordinate i k aks = .ok r) : r.1 = i.get k := by
  rw [simple_header_coordinate] at h
  split at h
  · exact absurd h (by simp)
  · cases he : enforce_unique_attributes i aks with
    | error e => rw [he] at h; exact absurd h (by simp)
    | ok attrs =>
      rw [he] at h
      injection h with h2
      rw [← h2]

/-- The numpy size of the data of the coordinate Variable built for a
value list is the length of that list, also in the collapsed scalar
case. -/
theorem mkCoordVariable_data_size (k : String) (vs : List Value)
    (ats : List (String × Value)) :
    (mkCoordVariable k vs ats).data.size = vs.length := by
  rw [mkCoordVariable]
  split
  · rename_i h; rw [h]; rfl
  · rfl

/-- The coordinates mapping built by the constructor loop is, entry by
entry, the coordEntry? image of the coordinate table. -/
theorem buildCoordinates_ok_eq (i : Index) :
    ∀ (L : List (String × List String)) (cs : List (String × Variable)),
    buildCoordinates i L = .ok cs → cs = L.filterMap (coordEntry? i) := by
  intro L
  induction L with
  | nil =>
    intro cs h
    rw [buildCoordinates] at h
    injection h with h2
    rw [← h2]; rfl
  | cons c rest ih =>
    intro cs h
    rw [buildCoordinates] at h
    rw [List.filterMap_cons]
    cases hs : simple_header_coordinate i c.1 c.2 with
    | error e =>
      rw [hs] at h
      cases e with
      | coordinateNotFound msg =>
        simp only [coordEntry?, hs]
        exact ih cs h
      | valueError msg => exact absurd h (by simp)
      | stopIteration => exact absurd h (by simp)
    | ok r =>
      rw [hs] at h
      simp only [coordEntry?, hs]
      cases ht : buildCoordinates i rest with
      | error e => rw [ht] at h; exact absurd h (by simp)
      | ok tail =>
        rw [ht] at h
        injection h with h2
        rw [← h2, ih tail ht]

/-- The keys of the built coordinates mapping form a sublist of the keys
of the coordinate table. -/
theorem coordEntry_keys_sublist (i : Index) (L : List (String × List String)) :
    ((L.filterMap (coordEntry? i)).map (fun c => c.1)).Sublist
      (L.map (fun c => c.1)) := by
  induction L with
  | nil => simp
  | cons c rest ih =>
    rw [List.filterMap_cons, List.map_cons]
    cases hs : simple_header_coordinate i c.1 c.2 with
    | error e =>
      simp only [coordEntry?, hs]
      exact ih.cons c.1
    | ok r =>
      simp only [coordEntry?, hs, List.map_cons]
      exact ih.cons₂ c.1

/-- Association list lookup of the key of a member succeeds when the keys
are distinct. -/
theorem lookupA_self {κ α : Type} [DecidableEq κ] {m : List (κ × α)}
    (hnd : (m.map (fun e => e.1)).Nodup) {e : κ × α} (he : e ∈ m) :
    lookupA m e.1 = some e.2 := by
  induction m with
  | nil => cases he
  | cons x rest ih =>
    rw [List.map_cons, List.nodup_cons] at hnd
    rcases List.mem_cons.mp he with rfl | hmem
    · rw [lookupA, if_pos rfl]
    · have hx : x.1 ≠ e.1 := by
        intro hc
        exact hnd.1 (hc ▸ List.mem_map_of_mem (fun e => e.1) hmem)
      rw [lookupA, if_neg hx]
      exact ih hnd.2 hmem

/-- The filtered projections of the built coordinates mapping coincide
with the corresponding projections of the filtered coordinate table:
the keys of the retained coordinates with more than one distinct value,
and their distinct value counts. -/
theorem coordsFilterProj (i : Index) (L : List (String × List String)) :
    ((L.filterMap (coordEntry? i)).filter
        (fun c => 1 < c.2.data.size)).map (fun c => c.1)
      = (L.filter (fun c =>
          retainedCoordinate i c && decide (1 < (i.get c.1).length))).map (fun c => c.1)
    ∧ ((L.filterMap (coordEntry? i)).filter
        (fun c => 1 < c.2.data.size)).map (fun c => c.2.data.size)
      = (L.filter (fun c =>
          retainedCoordinate i c && decide (1 < (i.get c.1).length))).map
          (fun c => (i.get c.1).length) := by
  induction L with
  | nil => exact ⟨rfl, rfl⟩
  | cons c rest ih =>
    rw [List.filterMap_cons, List.filter_cons]
    cases hs : simple_header_coordinate i c.1 c.2 with
    | error e =>
      have hret : (retainedCoordinate i c && decide (1 < (i.get c.1).length)) = false := by
        rw [retainedCoordinate, hs]
        rfl
      rw [hret]
      simp only [coordEntry?, hs]
      exact ih
    | ok r =>
      have hdata : r.1 = i.get c.1 := shc_ok_data hs
      have hret : (retainedCoordinate i c && decide (1 < (i.get c.1).length))
          = decide (1 < (i.get c.1).length) := by
        rw [retainedCoordinate, hs]
        rfl
      rw [hret]
      simp only [coordEntry?, hs]
      have hsz : (c.1, mkCoordVariable c.1 r.1 r.2).2.data.size = (i.get c.1).length := by
        rw [mkCoordVariable_data_size, hdata]
      by_cases hlen : 1 < (i.get c.1).length
      · rw [List.filter_cons, if_pos (by rw [hsz]; exact decide_eq_true hlen),
          if_pos (decide_eq_true hlen)]
        refine ⟨?_, ?_⟩
        · rw [List.map_cons, List.map_cons, ih.1]
        · rw [List.map_cons, List.map_cons, ih.2, hsz]
      · rw [List.filter_cons, if_neg (by rw [hsz]; simpa using hlen),
          if_neg (by simpa using hlen)]
        exact ih

/-- C1: for every successfully constructed DataVariable, the dimensions
tuple is exactly the retained header coordinates with more than one
distinct value, in the declaration order of the coordinate table,
followed by the trailing dimension i; and the shape gives each such
coordinate its distinct value count, with the trailing entry equal to
the leader record's declared payload length. -/
theorem dataVariable_dimensions_shape_spec (s : Stream) (i : Index)
    (v : DataVariable) (leader : Record)
    (hld : s.records.head? = some leader)
    (h : mkDataVariable s i = .ok v) :
    v.dimensions =
      (HEADER_COORDINATES_MAP.filter (fun c =>
        retainedCoordinate i c && decide (1 < (i.get c.1).length))).map
        (fun c => c.1) ++ ["i"]
    ∧ v.shape =
      (HEADER_COORDINATES_MAP.filter (fun c =>
        retainedCoordinate i c && decide (1 < (i.get c.1).length))).map
        (fun c => (i.get c.1).length) ++ [leader.numberOfPoints] := by
  simp only [mkDataVariable, hld] at h
  cases h1 : enforce_unique_attributes i VARIABLE_ATTRIBUTES_KEYS with
  | error e => simp only [h1] at h; exact absurd h (by simp)
  | ok attrs1 =>
  simp only [h1] at h
  cases h2 : enforce_unique_attributes i (SPATIAL_COORDINATES_ATTRIBUTES_KEYS ++
      (lookupA GRID_TYPE_MAP leader.gridType).getD []) with
  | error e => simp only [h2] at h; exact absurd h (by simp)
  | ok attrs2 =>
  simp only [h2] at h
  cases h3 : buildCoordinates i HEADER_COORDINATES_MAP with
  | error e => simp only [h3] at h; exact absurd h (by simp)
  | ok coords =>
  simp only [h3] at h
  injection h with h4
  subst h4
  have hcs : coords = HEADER_COORDINATES_MAP.filterMap (coordEntry? i) :=
    buildCoordinates_ok_eq i HEADER_COORDINATES_MAP coords h3
  have hnd : (coords.map (fun c => c.1)).Nodup := by
    rw [hcs]
    exact (coordEntry_keys_sublist i HEADER_COORDINATES_MAP).nodup (by decide)
  constructor
  · show (coords.filter (fun c => 1 < c.2.data.size)).map (fun c => c.1) ++ ["i"] = _
    rw [hcs, (coordsFilterProj i HEADER_COORDINATES_MAP).1]
  · show ((coords.filter (fun c => 1 < c.2.data.size)).map (fun c => c.1)
        ++ ["i"]).dropLast.map _ ++ [leader.numberOfPoints] = _
    rw [List.dropLast_concat, List.map_map]
    have hmc : ∀ e ∈ coords.filter (fun c => 1 < c.2.data.size),
        ((fun d => match lookupA coords d with
          | some c => c.data.size
          | none => 0) ∘ (fun c => c.1)) e = e.2.data.size := by
      intro e he
      have hmem : e ∈ coords := (List.mem_filter.mp he).1
      show (match lookupA coords e.1 with
        | some c => c.data.size
        | none => 0) = e.2.data.size
      rw [lookupA_self hnd hmem]
    rw [List.map_congr_left hmc, hcs, (coordsFilterProj i HEADER_COORDINATES_MAP).2]

/-- Witness for C1: the concrete two-level index produces the dimensions
topLevel and i with shape 2 and 2, matching the filtered coordinate
table. -/
theorem dataVariable_dimensions_shape_spec_witness :
    ∃ v, mkDataVariable c5Stream (c5IndexOk.subindex "paramId" (Value.int 130)) = .ok v
    ∧ v.dimensions = ["topLevel", "i"] ∧ v.shape = [2, 2] := by
  have hok : isOkE (mkDataVariable c5Stream
      (c5IndexOk.subindex "paramId" (Value.int 130))) = true := by decide
  cases hv : mkDataVariable c5Stream (c5IndexOk.subindex "paramId" (Value.int 130)) with
  | error e => rw [hv] at hok; exact absurd hok (by simp [isOkE])
  | ok v =>
    have h := dataVariable_dimensions_shape_spec c5Stream
      (c5IndexOk.subindex "paramId" (Value.int 130)) v ⟨"foo", 2, [], []⟩ (by decide) hv
    refine ⟨v, rfl, ?_, ?_⟩
    · rw [h.1]; decide
    · rw [h.2]; decide

/-! ### Lemmas about the build_array machinery -/

theorem optMapM_congr {α β : Type} {f g : α → Option β} :
    ∀ {l : List α}, (∀ x ∈ l, f x = g x) → optMapM f l = optMapM g l
  | [], _ => rfl
  | x :: xs, h => by
    rw [optMapM, optMapM, h x (by simp),
      optMapM_congr (fun y hy => h y (by simp [hy]))]

theorem optMapM_mem_some {α β : Type} {f : α → Option β} :
    ∀ {l : List α} {ys : List β}, optMapM f l = some ys →
    ∀ {x : α}, x ∈ l → ∃ y ∈ ys, f x = some y := by
  intro l
  induction l with
  | nil => intro ys _ x hx; cases hx
  | cons a as ih =>
    intro ys h x hx
    rw [optMapM] at h
    cases ha : f a with
    | none => rw [ha] at h; exact absurd h (by simp)
    | some y =>
      rw [ha] at h
      cases hrest : optMapM f as with
      | none => rw [hrest] at h; exact absurd h (by simp)
      | some zs =>
        rw [hrest] at h
        injection h with h2
        subst h2
        rcases List.mem_cons.mp hx with rfl | hmem
        · exact ⟨y, by simp, ha⟩
        · rcases ih hrest hmem with ⟨z, hz, hfz⟩
          exact ⟨z, by simp [hz], hfz⟩

theorem optMapM_some_mem {α β : Type} {f : α → Option β} :
    ∀ {l : List α} {ys : List β}, optMapM f l = some ys →
    ∀ {y : β}, y ∈ ys → ∃ x ∈ l, f x = some y := by
  intro l
  induction l with
  | nil =>
    intro ys h y hy
    rw [optMapM] at h
    injection h with h2
    subst h2
    cases hy
  | cons a as ih =>
    intro ys h y hy
    rw [optMapM] at h
    cases ha : f a with
    | none => rw [ha] at h; exact absurd h (by simp)
    | some z =>
      rw [ha] at h
      cases hrest : optMapM f as with
      | none => rw [hrest] at h; exact absurd h (by simp)
      | some zs =>
        rw [hrest] at h
        injection h with h2
        subst h2
        rcases List.mem_cons.mp hy with rfl | hmem
        · exact ⟨a, by simp, ha⟩
        · rcases ih hrest hmem with ⟨x, hx, hfx⟩
          exact ⟨x, by simp [hx], hfx⟩

theorem foldl_lookup_none {α : Type} {pos : List Nat} :
    ∀ (rows : List (List Nat × α)) (acc : Option α),
    (∀ e ∈ rows, e.1 ≠ pos) →
    rows.foldl (fun acc r => if r.1 = pos then some r.2 else acc) acc = acc := by
  intro rows
  induction rows with
  | nil => intro acc _; rfl
  | cons r rest ih =>
    intro acc h
    rw [List.foldl_cons, if_neg (h r (by simp))]
    exact ih acc (fun e he => h e (by simp [he]))

theorem foldl_lookup_const {α : Type} {pos : List Nat} {w : α} :
    ∀ (rows : List (List Nat × α)) (acc : Option α),
    (∃ e ∈ rows, e.1 = pos) → (∀ e ∈ rows, e.1 = pos → e.2 = w) →
    rows.foldl (fun acc r => if r.1 = pos then some r.2 else acc) acc = some w := by
  intro rows
  induction rows with
  | nil => intro acc hex _; simp at hex
  | cons r rest ih =>
    intro acc hex hall
    rw [List.foldl_cons]
    by_cases hrest : ∃ e ∈ rest, e.1 = pos
    · exact ih _ hrest (fun e he hpe => hall e (by simp [he]) hpe)
    · have hr : r.1 = pos := by
        rcases hex with ⟨e, he, hpe⟩
        rcases List.mem_cons.mp he with rfl | hmem
        · exact hpe
        · exact absurd ⟨e, hmem, hpe⟩ hrest
      rw [if_pos hr, hall r (by simp) hr]
      exact foldl_lookup_none rest _ (fun e he hpe => hrest ⟨e, he, hpe⟩)

/-- lookupLast returns none when no row carries the multi-index. -/
theorem lookupLast_none {α : Type} {rows : List (List Nat × α)} {pos : List Nat}
    (h : ∀ e ∈ rows, e.1 ≠ pos) : lookupLast rows pos = none :=
  foldl_lookup_none rows none h

/-- lookupLast returns the common value when every row carrying the
multi-index holds the same value and at least one does. -/
theorem lookupLast_unique {α : Type} {rows : List (List Nat × α)} {pos : List Nat}
    {w : α} (hex : ∃ e ∈ rows, e.1 = pos) (hall : ∀ e ∈ rows, e.1 = pos → e.2 = w) :
    lookupLast rows pos = some w :=
  foldl_lookup_const rows none hex hall

/-- placeOne reads the payload only at the first offset of its bucket. -/
theorem placeOne_congr {v : DataVariable} {p q : Nat → List ℚ}
    {b : HeaderTuple × List Nat}
    (h : ∀ o, b.2.head? = some o → p o = q o) :
    placeOne v p b = placeOne v q b := by
  rw [placeOne, placeOne]
  cases computePos v b.1 with
  | none => rfl
  | some pos =>
    cases ho : b.2.head? with
    | none => rfl
    | some off =>
      simp only [h off ho]

/-- Successful placeOne writes at the computed multi-index; its bucket
has a first offset, the shape has a trailing size, and the row is the
payload at the first offset whenever that payload has the trailing
length. -/
theorem placeOne_some_inv {v : DataVariable} {p : Nat → List ℚ}
    {b : HeaderTuple × List Nat} {w : List Nat × List ℚ}
    (h : placeOne v p b = some w) :
    computePos v b.1 = some w.1
    ∧ ∃ off m, b.2.head? = some off ∧ v.shape.getLast? = some m ∧
      ((p off).length = m → w.2 = p off) := by
  rw [placeOne] at h
  cases hc : computePos v b.1 with
  | none => simp only [hc] at h; exact absurd h (by simp)
  | some pos =>
    simp only [hc] at h
    cases ho : b.2.head? with
    | none => simp only [ho] at h; exact absurd h (by simp)
    | some off =>
      simp only [ho] at h
      cases hm : v.shape.getLast? with
      | none => simp only [hm] at h; exact absurd h (by simp)
      | some m =>
        simp only [hm] at h
        split at h
        · split at h
          · injection h with h2
            subst h2
            exact ⟨rfl, off, m, rfl, rfl, fun _ => rfl⟩
          · rename_i hne
            split at h
            · injection h with h2
              subst h2
              exact ⟨rfl, off, m, rfl, rfl, fun hl => absurd hl hne⟩
            · exact absurd h (by simp)
        · exact absurd h (by simp)

/-- A successful build_array decomposes into the successful write list
and its missing-value substitution. -/
theorem build_array_some_elim {v : DataVariable} {p : Nat → List ℚ}
    {rows : List (List Nat × List F32)} (hba : build_array v p = some rows) :
    ∃ ws, optMapM (placeOne v p) (sortBuckets v.index.offsets) = some ws ∧
      rows = ws.map (fun w => (w.1, substMissing (attrMissingValue v.attributes) w.2)) := by
  rw [build_array, buildArrayWrites] at hba
  rcases Option.map_eq_some'.mp hba with ⟨ws, hws, hmap⟩
  exact ⟨ws, hws, hmap.symm⟩

/-- Every row of a successful build_array sits at the computed
multi-index of some bucket of the sub-index. -/
theorem build_array_rows_pos {v : DataVariable} {p : Nat → List ℚ}
    {rows : List (List Nat × List F32)} (hba : build_array v p = some rows) :
    ∀ e ∈ rows, ∃ b ∈ v.index.offsets, computePos v b.1 = some e.1 := by
  rcases build_array_some_elim hba with ⟨ws, hws, hmap⟩
  intro e he
  rw [hmap] at he
  rcases List.mem_map.mp he with ⟨w, hw, hew⟩
  rcases optMapM_some_mem hws hw with ⟨b, hb, hpb⟩
  refine ⟨b, (List.mem_insertionSort bucketLE).mp hb, ?_⟩
  rw [(placeOne_some_inv hpb).1, ← hew]

/-- The central uniqueness lemma: when one bucket of the sub-index is the
only one whose records compute to a given multi-index, the built array
at that multi-index is the substituted payload of that bucket's first
offset. -/
theorem build_array_unique_pos {v : DataVariable} {p : Nat → List ℚ}
    {rows : List (List Nat × List F32)} {hv : HeaderTuple} {offs : List Nat}
    {off : Nat} {pos : List Nat}
    (hba : build_array v p = some rows)
    (hmem : (hv, offs) ∈ v.index.offsets)
    (hoff : offs.head? = some off)
    (hpos : computePos v hv = some pos)
    (huniq : ∀ b ∈ v.index.offsets, b ≠ (hv, offs) → computePos v b.1 ≠ some pos)
    (hlen : (p off).length = v.shape.getLastD 0) :
    arrayAt v rows pos = substMissing (attrMissingValue v.attributes) (p off) := by
  rcases build_array_some_elim hba with ⟨ws, hws, hmap⟩
  have hmemS : (hv, offs) ∈ sortBuckets v.index.offsets :=
    (List.mem_insertionSort bucketLE).mpr hmem
  rcases optMapM_mem_some hws hmemS with ⟨w, hwmem, hpw⟩
  rcases placeOne_some_inv hpw with ⟨hcw, off2, m, hoff2, hm, hrow⟩
  have hoff2a : offs.head? = some off2 := hoff2
  have hoffeq : off = off2 := by
    rw [hoff] at hoff2a; exact Option.some.inj hoff2a
  subst hoffeq
  have hcwa : computePos v hv = some w.1 := hcw
  have hw1 : w.1 = pos := by
    rw [hpos] at hcwa; exact (Option.some.inj hcwa).symm
  have hlen2 : (p off).length = m := by
    rw [hlen, List.getLastD_eq_getLast?, hm]; rfl
  have hw2 : w.2 = p off := hrow hlen2
  have hall : ∀ e ∈ rows, e.1 = pos →
      e.2 = substMissing (attrMissingValue v.attributes) (p off) := by
    intro e he hpe
    rw [hmap] at he
    rcases List.mem_map.mp he with ⟨w3, hw3, hew⟩
    rcases optMapM_some_mem hws hw3 with ⟨b, hb, hpb⟩
    have hbmem : b ∈ v.index.offsets := (List.mem_insertionSort bucketLE).mp hb
    have hpe2 : w3.1 = pos := by
      rw [← hew] at hpe; exact hpe
    have hbpos : computePos v b.1 = some pos := by
      rw [(placeOne_some_inv hpb).1, hpe2]
    have hbeq : b = (hv, offs) := by
      by_contra hne
      exact huniq b hbmem hne hbpos
    subst hbeq
    have hww : w3 = w := by
      rw [hpw] at hpb; injection hpb with h2; exact h2.symm
    rw [← hew, hww, hw2]
  have hex : ∃ e ∈ rows, e.1 = pos := by
    refine ⟨(w.1, substMissing (attrMissingValue v.attributes) w.2), ?_, hw1⟩
    rw [hmap]
    exact List.mem_map.mpr ⟨w, hwmem, rfl⟩
  rw [arrayAt, lookupLast_unique hex hall]
  rfl

theorem foldl_lookup_mem {α : Type} {pos : List Nat} {w : α} :
    ∀ (rows : List (List Nat × α)) (acc : Option α),
    rows.foldl (fun acc r => if r.1 = pos then some r.2 else acc) acc = some w →
    (pos, w) ∈ rows ∨ acc = some w := by
  intro rows
  induction rows with
  | nil => intro acc h; exact Or.inr h
  | cons r rest ih =>
    intro acc h
    rw [List.foldl_cons] at h
    rcases ih _ h with hmem | hacc
    · exact Or.inl (by simp [hmem])
    · by_cases hr : r.1 = pos
      · rw [if_pos hr] at hacc
        injection hacc with h2
        left
        have : r = (pos, w) := by
          cases r
          simp only at hr h2
          rw [hr, h2]
        rw [← this]
        simp
      · rw [if_neg hr] at hacc
        exact Or.inr hacc

/-- A successful lookupLast returns the value of a row of the list at
that multi-index. -/
theorem lookupLast_mem {α : Type} {rows : List (List Nat × α)} {pos : List Nat}
    {w : α} (h : lookupLast rows pos = some w) : (pos, w) ∈ rows := by
  rcases foldl_lookup_mem rows none h with hmem | hacc
  · exact hmem
  · exact absurd hacc (by simp)

/-- After substitution no entry of a written row equals the sentinel. -/
theorem substMissing_no_sentinel (mv : ℚ) (row : List ℚ) :
    some mv ∉ substMissing (some mv) row := by
  intro h
  rcases List.mem_map.mp h with ⟨q, _, hmapq⟩
  by_cases hqe : (some q : Option ℚ) = some mv
  · rw [if_pos hqe] at hmapq; exact absurd hmapq (by simp)
  · rw [if_neg hqe] at hmapq; exact hqe (by rw [hmapq])

/-! ### Claim C2 -/

/-- C2: for a record whose header tuple places it uniquely at a
multi-index (its bucket is a singleton and no other bucket computes the
same multi-index), the built array restricted to that multi-index is the
record's decoded payload with every sentinel entry replaced by NaN. -/
theorem build_array_roundtrip (v : DataVariable) (p : Nat → List ℚ)
    (rows : List (List Nat × List F32)) (hv : HeaderTuple) (off : Nat)
    (pos : List Nat)
    (hba : build_array v p = some rows)
    (hmem : (hv, [off]) ∈ v.index.offsets)
    (hpos : computePos v hv = some pos)
    (huniq : ∀ b ∈ v.index.offsets, b ≠ (hv, [off]) → computePos v b.1 ≠ some pos)
    (hlen : (p off).length = v.shape.getLastD 0) :
    arrayAt v rows pos = substMissing (attrMissingValue v.attributes) (p off) :=
  build_array_unique_pos hba hmem rfl hpos huniq hlen

/-- Witness for C2: the record of caVar at offset 0 sits alone at
multi-index 0; the array row there is its payload with the 9999 entry
replaced by NaN. -/
theorem build_array_roundtrip_witness :
    arrayAt caVar [([0], [some 1, none]), ([1], [some 3, some 4])] [0] =
      substMissing (attrMissingValue caVar.attributes) (caPayload 0) :=
  build_array_roundtrip caVar caPayload
    [([0], [some 1, none]), ([1], [some 3, some 4])]
    (c5Tuple 130 "t" 850) 0 [0] (by decide) (by decide) (by decide)
    (by decide) (by decide)

/-! ### Claim C3 -/

/-- C3: in a successfully built array, every multi-index written by no
record of the sub-index holds the NaN fill row; no entry of the final
array equals the missing value sentinel (the declared integer
missingValue, or 9999 when the variable declares none); and every
constructed DataVariable has dtype float32. -/
theorem build_array_nan_fill_missing_dtype :
    (∀ (v : DataVariable) (p : Nat → List ℚ) (rows : List (List Nat × List F32))
      (pos : List Nat),
      build_array v p = some rows →
      (∀ b ∈ v.index.offsets, ¬ computePos v b.1 = some pos) →
      arrayAt v rows pos = List.replicate (v.shape.getLastD 0) none)
    ∧ (∀ (v : DataVariable) (p : Nat → List ℚ) (rows : List (List Nat × List F32))
      (mv : ℚ) (pos : List Nat),
      build_array v p = some rows →
      attrMissingValue v.attributes = some mv →
      some mv ∉ arrayAt v rows pos)
    ∧ (∀ (s : Stream) (i : Index) (v : DataVariable),
      mkDataVariable s i = .ok v → v.dtype = "float32") := by
  refine ⟨?_, ?_, ?_⟩
  · intro v p rows pos hba hnw
    have hnone : lookupLast rows pos = none := by
      apply lookupLast_none
      intro e he hpe
      rcases build_array_rows_pos hba e he with ⟨b, hb, hcb⟩
      exact hnw b hb (by rw [hcb, hpe])
    rw [arrayAt, hnone]
    rfl
  · intro v p rows mv pos hba hmv hmem
    rcases build_array_some_elim hba with ⟨ws, hws, hmap⟩
    rw [arrayAt] at hmem
    cases hl : lookupLast rows pos with
    | none =>
      rw [hl] at hmem
      exact absurd (List.eq_of_mem_replicate hmem) (by simp)
    | some row =>
      rw [hl] at hmem
      have hrow : (pos, row) ∈ rows := lookupLast_mem hl
      rw [hmap] at hrow
      rcases List.mem_map.mp hrow with ⟨w, _, hew⟩
      have hrow2 : row = substMissing (some mv) w.2 := by
        have h2 : substMissing (attrMissingValue v.attributes) w.2 = row := by
          have := congrArg Prod.snd hew
          exact this
        rw [← h2, hmv]
      rw [hrow2] at hmem
      exact substMissing_no_sentinel mv w.2 hmem
  · intro s i v h
    rw [mkDataVariable] at h
    split at h
    · exact absurd h (by simp)
    · split at h
      · exact absurd h (by simp)
      · split at h
        · exact absurd h (by simp)
        · split at h
          · exact absurd h (by simp)
          · injection h with h2
            subst h2
            rfl

/-- Witness for C3: on the concrete caVar array, the unwritten
multi-index 5 holds the NaN row, no entry at multi-index 0 equals the
sentinel 9999, and the dtype is float32. -/
theorem build_array_nan_fill_missing_dtype_witness :
    build_array caVar caPayload = some [([0], [some 1, none]), ([1], [some 3, some 4])]
    ∧ arrayAt caVar [([0], [some 1, none]), ([1], [some 3, some 4])] [5] = [none, none]
    ∧ some (9999 : ℚ) ∉ arrayAt caVar
        [([0], [some 1, none]), ([1], [some 3, some 4])] [0]
    ∧ caVar.dtype = "float32" := by
  have hba : build_array caVar caPayload =
      some [([0], [some 1, none]), ([1], [some 3, some 4])] := by decide
  refine ⟨hba, ?_, ?_, ?_⟩
  · have h := build_array_nan_fill_missing_dtype.1 caVar caPayload
      [([0], [some 1, none]), ([1], [some 3, some 4])] [5] hba (by decide)
    rw [h]; decide
  · exact build_array_nan_fill_missing_dtype.2.1 caVar caPayload
      [([0], [some 1, none]), ([1], [some 3, some 4])] 9999 [0] hba (by decide)
  · exact build_array_nan_fill_missing_dtype.2.2 c5Stream
      (c5IndexOk.subindex "paramId" (Value.int 130)) caVar (by decide)

/-! ### Claim C10 -/

/-- C10: build_array reads payloads only at the first offset of each
bucket (two payload maps agreeing there produce identical arrays), and
for a bucket with several offsets that alone computes its multi-index,
the array content at that multi-index is the substituted payload of the
first (earliest-scanned) offset. -/
theorem build_array_first_offset_only :
    (∀ (v : DataVariable) (p q : Nat → List ℚ),
      (∀ b ∈ v.index.offsets, ∀ o, b.2.head? = some o → p o = q o) →
      build_array v p = build_array v q)
    ∧ (∀ (v : DataVariable) (p : Nat → List ℚ)
      (rows : List (List Nat × List F32)) (hv : HeaderTuple) (offs : List Nat)
      (off : Nat) (pos : List Nat),
      build_array v p = some rows →
      (hv, offs) ∈ v.index.offsets → offs.head? = some off →
      computePos v hv = some pos →
      (∀ b ∈ v.index.offsets, b ≠ (hv, offs) → computePos v b.1 ≠ some pos) →
      (p off).length = v.shape.getLastD 0 →
      arrayAt v rows pos = substMissing (attrMissingValue v.attributes) (p off)) := by
  constructor
  · intro v p q h
    rw [build_array, build_array, buildArrayWrites, buildArrayWrites]
    have hcong : optMapM (placeOne v p) (sortBuckets v.index.offsets) =
        optMapM (placeOne v q) (sortBuckets v.index.offsets) :=
      optMapM_congr (fun b hb =>
        placeOne_congr (h b ((List.mem_insertionSort bucketLE).mp hb)))
    rw [hcong]
  · intro v p rows hv offs off pos hba hmem hoff hpos huniq hlen
    exact build_array_unique_pos hba hmem hoff hpos huniq hlen

/-- Witness for C10: changing the payload at the non-first offset 20 of
the two-offset bucket of c8Var leaves the built array unchanged, and the
array content at the bucket's multi-index is the payload of the first
offset 10. -/
theorem build_array_first_offset_only_witness :
    build_array c8Var c8Payload = build_array c8Var c10PayloadAlt
    ∧ arrayAt c8Var [([], [some 5, some 6])] [] =
        substMissing (attrMissingValue c8Var.attributes) (c8Payload 10) := by
  constructor
  · apply build_array_first_offset_only.1
    intro b hb o ho
    have hoffsets : c8Var.index.offsets = [(c5Tuple 130 "t" 850, [10, 20])] := by decide
    rw [hoffsets] at hb
    have hb2 : b = (c5Tuple 130 "t" 850, [10, 20]) := by simpa using hb
    rw [hb2] at ho
    have ho2 : o = 10 := (Option.some.inj ho).symm
    rw [ho2]
    decide
  · exact build_array_first_offset_only.2 c8Var c8Payload
      [([], [some 5, some 6])] (c5Tuple 130 "t" 850) [10, 20] 10 []
      (by decide) (by decide) (by decide) (by decide) (by decide) (by decide)

/-! ### Claim C8 -/

/-- Counterexample to C8: the two records of c8Var share the identical
header tuple, hence the identical multi-index, yet the payload left in
the array is that of the earlier offset 10, not of the later offset 20. -/
theorem build_array_last_wins_counterexample :
    c8Var.index.offsets = [(c5Tuple 130 "t" 850, [10, 20])]
    ∧ build_array c8Var c8Payload = some [([], [some 5, some 6])]
    ∧ arrayAt c8Var [([], [some 5, some 6])] [] =
        substMissing (attrMissingValue c8Var.attributes) (c8Payload 10)
    ∧ arrayAt c8Var [([], [some 5, some 6])] [] ≠
        substMissing (attrMissingValue c8Var.attributes) (c8Payload 20) :=
  ⟨by decide, by decide, by decide, by decide⟩

/-- C8 as amended: build_array visits the buckets of the offsets mapping
as a permutation sorted in ascending offset-list order, decodes only the
record at each bucket's first offset, and when two records from distinct
buckets compute the identical multi-index the later-processed one's
payload is left in the array with no warning or error, as the concrete
two-bucket collision c8bVar shows. -/
theorem build_array_visit_order_spec :
    (∀ (bs : List (HeaderTuple × List Nat)),
      (sortBuckets bs).Perm bs ∧ (sortBuckets bs).Sorted bucketLE)
    ∧ (∀ (v : DataVariable) (p q : Nat → List ℚ) (b : HeaderTuple × List Nat),
      (∀ o, b.2.head? = some o → p o = q o) → placeOne v p b = placeOne v q b)
    ∧ build_array c8bVar c8bPayload =
        some [([], [some 5, some 6]), ([], [some 7, some 8])]
    ∧ arrayAt c8bVar [([], [some 5, some 6]), ([], [some 7, some 8])] [] =
        substMissing (attrMissingValue c8bVar.attributes) (c8bPayload 40) :=
  ⟨fun bs => ⟨List.perm_insertionSort bucketLE bs, List.sorted_insertionSort bucketLE bs⟩,
   fun _ p q b h => placeOne_congr h, by decide, by decide⟩

/-- Witness for the amended C8: the per-bucket decoding of the two-offset
bucket of c8Var is unchanged by any payload map agreeing at the first
offset. -/
theorem build_array_visit_order_spec_witness :
    placeOne c8Var c8Payload (c5Tuple 130 "t" 850, [10, 20]) =
      placeOne c8Var c10PayloadAlt (c5Tuple 130 "t" 850, [10, 20]) := by
  apply build_array_visit_order_spec.2.1
  intro o ho
  have ho2 : o = 10 := (Option.some.inj ho).symm
  rw [ho2]
  decide

/-! ### Lemmas for the dataset-building loop -/

theorem lookupA_append {κ α : Type} [DecidableEq κ] (a b : List (κ × α)) (k : κ) :
    lookupA (a ++ b) k = match lookupA a k with
      | some v => some v
      | none => lookupA b k := by
  induction a with
  | nil => rfl
  | cons e rest ih =>
    by_cases he : e.1 = k
    · simp [lookupA, he]
    · simp only [List.cons_append, lookupA, if_neg he]
      exact ih

theorem dataEntries_append (a b : List (Value × VarEntry)) :
    dataEntries (a ++ b) = dataEntries a ++ dataEntries b := by
  rw [dataEntries, dataEntries, dataEntries, List.filterMap_append]

theorem setAssoc_data_head {sn : Value} {var : DataVariable}
    {rest : List (Value × VarEntry)} (k : Value) (val : VarEntry)
    (hk : k ≠ sn) (hval : ∀ dv, val ≠ VarEntry.data dv)
    (hrest : ∀ e ∈ rest, ∀ dv, e.2 ≠ VarEntry.data dv) :
    ∃ rest2, setAssoc ((sn, VarEntry.data var) :: rest) k val =
        (sn, VarEntry.data var) :: rest2
      ∧ ∀ e ∈ rest2, ∀ dv, e.2 ≠ VarEntry.data dv := by
  rw [setAssoc]
  split
  · refine ⟨rest.map (fun e => if e.1 = k then (k, val) else e), ?_, ?_⟩
    · rw [List.map_cons, if_neg (fun hc => hk ((show sn = k from hc).symm))]
    · intro e he dv
      rcases List.mem_map.mp he with ⟨orig, ho, heq⟩
      by_cases hok : orig.1 = k
      · rw [if_pos hok] at heq; rw [← heq]; exact hval dv
      · rw [if_neg hok] at heq; rw [← heq]; exact hrest orig ho dv
  · refine ⟨rest ++ [(k, val)], by rw [List.cons_append], ?_⟩
    intro e he dv
    rcases List.mem_append.mp he with h1 | h1
    · exact hrest e h1 dv
    · have h2 : e = (k, val) := by simpa using h1
      rw [h2]; exact hval dv

theorem updateA_data_head {sn : Value} {var : DataVariable} :
    ∀ (upd rest : List (Value × VarEntry)),
    (∀ e ∈ upd, e.1 ≠ sn ∧ ∀ dv, e.2 ≠ VarEntry.data dv) →
    (∀ e ∈ rest, ∀ dv, e.2 ≠ VarEntry.data dv) →
    ∃ rest2, updateA ((sn, VarEntry.data var) :: rest) upd =
        (sn, VarEntry.data var) :: rest2
      ∧ ∀ e ∈ rest2, ∀ dv, e.2 ≠ VarEntry.data dv := by
  intro upd
  induction upd with
  | nil => intro rest _ hrest; exact ⟨rest, rfl, hrest⟩
  | cons e upds ih =>
    intro rest hupd hrest
    rw [updateA, List.foldl_cons]
    rcases setAssoc_data_head e.1 e.2 (hupd e (by simp)).1 (hupd e (by simp)).2 hrest with
      ⟨rest2, hset, hrest2⟩
    rw [hset]
    have h2 := ih rest2 (fun x hx => hupd x (by simp [hx])) hrest2
    rw [updateA] at h2
    exact h2

theorem dict_merge_no_data :
    ∀ (upd master merged : List (Value × VarEntry)),
    (∀ e ∈ upd, ∀ dv, e.2 ≠ VarEntry.data dv) →
    dict_merge master upd = .ok merged →
    dataEntries merged = dataEntries master := by
  intro upd
  induction upd with
  | nil =>
    intro master merged _ h
    injection h with h2
    rw [h2]
  | cons e upds ih =>
    intro master merged hupd h
    rw [dict_merge] at h
    cases hl : lookupA master e.1 with
    | none =>
      simp only [hl] at h
      have h2 := ih (master ++ [e]) merged (fun x hx => hupd x (by simp [hx])) h
      have he : dataEntries [e] = [] := by
        cases he2 : e.2 with
        | data dv => exact absurd he2 (hupd e (by simp) dv)
        | coord cv => simp [dataEntries, he2]
      rw [h2, dataEntries_append, he, List.append_nil]
    | some w =>
      simp only [hl] at h
      split at h
      · exact ih master merged (fun x hx => hupd x (by simp [hx])) h
      · exact absurd h (by simp)

theorem dict_merge_lookup_data :
    ∀ (upd master merged : List (Value × VarEntry)),
    dict_merge master upd = .ok merged →
    ∀ (k : Value) (dv : DataVariable),
    lookupA merged k = some (VarEntry.data dv) →
    lookupA master k = some (VarEntry.data dv) ∨ (k, VarEntry.data dv) ∈ upd := by
  intro upd
  induction upd with
  | nil =>
    intro master merged h k dv hk
    injection h with h2
    rw [h2]
    exact Or.inl hk
  | cons e upds ih =>
    intro master merged h k dv hk
    rw [dict_merge] at h
    cases hl : lookupA master e.1 with
    | none =>
      simp only [hl] at h
      rcases ih (master ++ [e]) merged h k dv hk with h1 | h1
      · rw [lookupA_append] at h1
        cases hm : lookupA master k with
        | some w =>
          simp only [hm] at h1
          exact Or.inl h1
        | none =>
          simp only [hm, lookupA] at h1
          split at h1
          · rename_i hkk
            injection h1 with h2
            right
            have h3 : e = (k, VarEntry.data dv) := by
              cases e
              simp only at hkk h2
              rw [hkk, h2]
            rw [← h3]
            simp
          · simp [lookupA] at h1
      · exact Or.inr (by simp [h1])
    | some w =>
      simp only [hl] at h
      split at h
      · rcases ih master merged h k dv hk with h1 | h1
        · exact Or.inl h1
        · exact Or.inr (by simp [h1])
      · exact absurd h (by simp)

theorem dedupFirstAux_nodup {α : Type} [DecidableEq α] :
    ∀ (l seen : List α),
    (dedupFirstAux seen l).Nodup ∧ ∀ x ∈ dedupFirstAux seen l, x ∉ seen := by
  intro l
  induction l with
  | nil => intro seen; exact ⟨List.nodup_nil, by intro x hx; cases hx⟩
  | cons x xs ih =>
    intro seen
    rw [dedupFirstAux]
    split
    · exact ih seen
    · rename_i hx
      refine ⟨?_, ?_⟩
      · rw [List.nodup_cons]
        refine ⟨?_, (ih (x :: seen)).1⟩
        intro hmem
        exact ((ih (x :: seen)).2 x hmem) (by simp)
      · intro y hy
        rcases List.mem_cons.mp hy with rfl | hmem
        · exact hx
        · intro hseen
          exact (ih (x :: seen)).2 y hmem (by simp [hseen])

/-- The distinct value lists reported by an Index carry no duplicates. -/
theorem indexGet_nodup (i : Index) (key : String) : (i.get key).Nodup := by
  rw [Index.get]
  split
  · exact List.nodup_nil
  · exact (dedupFirstAux_nodup _ []).1

theorem zip_snd_pairwise {α β : Type} :
    ∀ (ps : List α) (ss : List β), ss.Nodup →
    List.Pairwise (fun a b => a.2 ≠ b.2) (List.zip ps ss) := by
  intro ps
  induction ps with
  | nil => intro ss _; simp
  | cons p ps2 ih =>
    intro ss hnd
    cases ss with
    | nil => simp
    | cons s ss2 =>
      rw [List.zip_cons_cons, List.nodup_cons] at *
      refine List.Pairwise.cons ?_ (ih ss2 hnd.2)
      intro pe hpe
      obtain ⟨a, b⟩ := pe
      have hb : b ∈ ss2 := (List.of_mem_zip hpe).2
      intro hc
      exact hnd.1 ((show s = b from hc) ▸ hb)

/-- The per-parameter merge loop appends, per processed pair, exactly one
data entry keyed by the pair's short name and bound to the DataVariable
built over the pair's parameter sub-index, provided the pairs carry
distinct short names, none of them is already bound to a data entry, and
no variable has a coordinate named like its own short name. -/
theorem mergeVariables_dataEntries (stream : Stream) (index : Index) :
    ∀ (pairs : List (Value × Value)) (dimsAcc : List (String × Nat))
      (varsAcc : List (Value × VarEntry)) (dims : List (String × Nat))
      (vars : List (Value × VarEntry)),
    mergeVariables stream index dimsAcc varsAcc pairs = .ok (dims, vars) →
    (∀ pv ∈ pairs, ∀ v, mkDataVariable stream (index.subindex "paramId" pv.1) = .ok v →
      ∀ ce ∈ v.coordinates, Value.str ce.1 ≠ pv.2) →
    (∀ pv ∈ pairs, ∀ dv, lookupA varsAcc pv.2 ≠ some (VarEntry.data dv)) →
    List.Pairwise (fun a b => a.2 ≠ b.2) pairs →
    ∃ tail, dataEntries vars = dataEntries varsAcc ++ tail ∧
      List.Forall₂ (fun pv e => e.1 = pv.2 ∧
        mkDataVariable stream (index.subindex "paramId" pv.1) = .ok e.2) pairs tail := by
  intro pairs
  induction pairs with
  | nil =>
    intro dimsAcc varsAcc dims vars h _ _ _
    rw [mergeVariables] at h
    injection h with h2
    have hv2 : varsAcc = vars := congrArg (fun t => t.2) h2
    refine ⟨[], ?_, List.Forall₂.nil⟩
    rw [← hv2, List.append_nil]
  | cons pv pairs2 ih =>
    intro dimsAcc varsAcc dims vars h hnc hP hpw
    rw [mergeVariables] at h
    cases hv : mkDataVariable stream (index.subindex "paramId" pv.1) with
    | error e => simp only [hv] at h; exact absurd h (by simp)
    | ok var =>
    simp only [hv] at h
    cases hd : dict_merge dimsAcc (List.zip var.dimensions var.shape) with
    | error e => simp only [hd] at h; exact absurd h (by simp)
    | ok dimsAcc2 =>
    simp only [hd] at h
    cases hm : dict_merge varsAcc (updateA [(pv.2, VarEntry.data var)]
        (var.coordinates.map (fun c => (Value.str c.1, VarEntry.coord c.2)))) with
    | error e => simp only [hm] at h; exact absurd h (by simp)
    | ok varsAcc2 =>
    simp only [hm] at h
    have hedata : ∀ e ∈ var.coordinates.map
        (fun c => (Value.str c.1, VarEntry.coord c.2)),
        e.1 ≠ pv.2 ∧ ∀ dv, e.2 ≠ VarEntry.data dv := by
      intro e he
      rcases List.mem_map.mp he with ⟨ce, hce, heq⟩
      constructor
      · rw [← heq]; exact hnc pv (by simp) var hv ce hce
      · intro dv; rw [← heq]; simp
    rcases updateA_data_head _ [] hedata (by intro e he; cases he) with
      ⟨rest2, hupd, hrest2⟩
    rw [hupd, dict_merge] at hm
    cases hl : lookupA varsAcc pv.2 with
    | some w =>
      simp only [hl] at hm
      split at hm
      · rename_i hw
        exact absurd (by rw [hl, hw]) (hP pv (by simp) var)
      · exact absurd hm (by simp)
    | none =>
      simp only [hl] at hm
      have hde2 : dataEntries varsAcc2 = dataEntries varsAcc ++ [(pv.2, var)] := by
        rw [dict_merge_no_data rest2 _ _ hrest2 hm, dataEntries_append]
        rfl
      have hP2 : ∀ pv2 ∈ pairs2, ∀ dv,
          lookupA varsAcc2 pv2.2 ≠ some (VarEntry.data dv) := by
        intro pv2 hpv2 dv hlk
        rcases dict_merge_lookup_data rest2 _ _ hm pv2.2 dv hlk with h1 | h1
        · rw [lookupA_append] at h1
          cases hms : lookupA varsAcc pv2.2 with
          | some w2 =>
            simp only [hms] at h1
            exact hP pv2 (by simp [hpv2]) dv (by rw [hms]; exact h1)
          | none =>
            simp only [hms, lookupA] at h1
            split at h1
            · rename_i hkk
              exact (List.pairwise_cons.mp hpw).1 pv2 hpv2 hkk
            · simp [lookupA] at h1
        · exact hrest2 _ h1 dv rfl
      rcases ih dimsAcc2 varsAcc2 dims vars h
        (fun pv2 h2 => hnc pv2 (by simp [h2])) hP2
        (List.pairwise_cons.mp hpw).2 with ⟨tail, htail, hfa⟩
      refine ⟨(pv.2, var) :: tail, ?_, List.Forall₂.cons ⟨rfl, hv⟩ hfa⟩
      rw [htail, hde2, List.append_assoc, List.singleton_append]

/-! ### Claim C7 -/

/-- Counterexample to C7: a file with two distinct parameter ids sharing
one short name builds only one variable, because the code zips the
deduplicated parameter id list with the shorter deduplicated short name
list; the claimed one-variable-per-parameter-id correspondence fails. -/
theorem build_dataset_components_shared_shortname_counterexample :
    c7Index.get "paramId" = [Value.int 130, Value.int 131]
    ∧ (build_dataset_components c5Stream c7Index).toOption.map
        (fun r => (dataEntries r.2.1).map (fun e => e.1)) = some [Value.str "t"] :=
  ⟨by decide, by decide⟩

/-- C7 as amended: a successful build_dataset_components constructs
exactly one variable per pair of the zip of the distinct parameter id
list with the distinct short name list, in that order, each keyed by the
pair's short name and built over the pair's parameter sub-index
(provided no variable has a coordinate named like its own short name,
which would shadow its entry). -/
theorem build_dataset_components_zip_spec (stream : Stream) (index : Index)
    (dims : List (String × Nat)) (vars : List (Value × VarEntry))
    (attrs : List (String × Value))
    (h : build_dataset_components stream index = .ok (dims, vars, attrs))
    (hnc : ∀ pv ∈ List.zip (index.get "paramId") (index.get "shortName"),
      ∀ v, mkDataVariable stream (index.subindex "paramId" pv.1) = .ok v →
        ∀ ce ∈ v.coordinates, Value.str ce.1 ≠ pv.2) :
    List.Forall₂ (fun pv e => e.1 = pv.2 ∧
        mkDataVariable stream (index.subindex "paramId" pv.1) = .ok e.2)
      (List.zip (index.get "paramId") (index.get "shortName"))
      (dataEntries vars) := by
  rw [build_dataset_components] at h
  cases hm : mergeVariables stream index [] []
      (List.zip (index.get "paramId") (index.get "shortName")) with
  | error e => simp only [hm] at h; exact absurd h (by simp)
  | ok dv =>
  obtain ⟨dims2, vars2⟩ := dv
  simp only [hm] at h
  cases ha : enforce_unique_attributes index GLOBAL_ATTRIBUTES_KEYS with
  | error e => simp only [ha] at h; exact absurd h (by simp)
  | ok attrs2 =>
  simp only [ha] at h
  injection h with h2
  have hv2 : vars2 = vars := congrArg (fun t => t.2.1) h2
  have hpw : List.Pairwise (fun a b => a.2 ≠ b.2)
      (List.zip (index.get "paramId") (index.get "shortName")) :=
    zip_snd_pairwise _ _ (indexGet_nodup index "shortName")
  rcases mergeVariables_dataEntries stream index _ [] [] dims2 vars2 hm hnc
    (by intro pv _ dv2 hk; simp [lookupA] at hk) hpw with ⟨tail, htail, hfa⟩
  rw [hv2] at htail
  rw [htail]
  simpa using hfa

/-- Witness for the amended C7: the two-parameter file c5IndexOk yields
exactly the data variables t and q, in order, built over the respective
parameter sub-indexes. -/
theorem build_dataset_components_zip_spec_witness :
    ∃ dims vars attrs,
      build_dataset_components c5Stream c5IndexOk = .ok (dims, vars, attrs)
      ∧ List.Forall₂ (fun pv e => e.1 = pv.2 ∧
          mkDataVariable c5Stream (c5IndexOk.subindex "paramId" pv.1) = .ok e.2)
        (List.zip (c5IndexOk.get "paramId") (c5IndexOk.get "shortName"))
        (dataEntries vars) := by
  have hok : isOkE (build_dataset_components c5Stream c5IndexOk) = true := by decide
  cases hb : build_dataset_components c5Stream c5IndexOk with
  | error e => rw [hb] at hok; exact absurd hok (by simp [isOkE])
  | ok r =>
  obtain ⟨dims, vars, attrs⟩ := r
  refine ⟨dims, vars, attrs, rfl, ?_⟩
  apply build_dataset_components_zip_spec c5Stream c5IndexOk dims vars attrs hb
  intro pv hpv v hv ce hce
  have hzip : List.zip (c5IndexOk.get "paramId") (c5IndexOk.get "shortName") =
      [(Value.int 130, Value.str "t"), (Value.int 131, Value.str "q")] := by decide
  rw [hzip] at hpv
  rcases List.mem_cons.mp hpv with rfl | hpv2
  · have h3 : (match mkDataVariable c5Stream
        (c5IndexOk.subindex "paramId" (Value.int 130)) with
      | .ok v2 => v2.coordinates.all
          (fun ce2 => decide (Value.str ce2.1 ≠ Value.str "t"))
      | .error _ => true) = true := by decide
    rw [hv] at h3
    exact of_decide_eq_true (List.all_eq_true.mp h3 ce hce)
  rcases List.mem_cons.mp hpv2 with rfl | hpv3
  · have h3 : (match mkDataVariable c5Stream
        (c5IndexOk.subindex "paramId" (Value.int 131)) with
      | .ok v2 => v2.coordinates.all
          (fun ce2 => decide (Value.str ce2.1 ≠ Value.str "q"))
      | .error _ => true) = true := by decide
    rw [hv] at h3
    exact of_decide_eq_true (List.all_eq_true.mp h3 ce hce)
  · cases hpv3

end EccodesGrib
